import Mathlib

/-!
Shallow embedding of the rate-limiting, question-generation and session-store
logic of `src/app.py` (a single-file Streamlit application), together with
theorems settling the specification claims about it.

Python strings are modelled as `List Char`, timestamps (`time.time()` floats)
as `ℚ`, and `None`-able fields as `Option`.
-/

/-- Truncation of a rational toward zero, the behaviour of Python `int(x)`
on a float/number `x`. -/
def pyInt (q : ℚ) : Int := if 0 ≤ q then ⌊q⌋ else ⌈q⌉

/-- The mutable admission state kept in `st.session_state`:
`last_request_time` (initialised to `0`) and `quota_reset_time`
(initialised to `None`).  Field names follow `src/app.py`. -/
structure AdmissionState where
  last_request_time : ℚ
  quota_reset_time : Option ℚ
deriving DecidableEq, Repr

/-- The two refusal messages produced by `check_quota_limits`, keeping the
embedded integer number of seconds.  `rateLimited n` stands for the f-string
`Rate limited. Wait ns.` and `waitBeforeNext n` for
`Wait ns before next request.`. -/
inductive QuotaMsg where
  | rateLimited (waitSeconds : Int)
  | waitBeforeNext (waitSeconds : Int)
deriving DecidableEq, Repr

/-- The spacing check at the end of `check_quota_limits` (src/app.py lines
198-203): refuse with the rounded remaining wait when fewer than 3 seconds
have elapsed since `last_request_time`, admit otherwise. -/
def spacing_check (current_time : ℚ) (s : AdmissionState) :
    (Bool × Option QuotaMsg) × AdmissionState :=
  if current_time - s.last_request_time < 3 then
    ((false, some (QuotaMsg.waitBeforeNext
      (pyInt (3 - (current_time - s.last_request_time))))), s)
  else
    ((true, none), s)

/-- Embedding of `check_quota_limits` (src/app.py lines 185-203).  The Python
guard `if st.session_state.quota_reset_time and ...` treats both `None` and
`0.0` as falsy, hence the `r ≠ 0` conjuncts.  The function returns the
`(can_proceed, error_msg)` pair together with the (possibly mutated)
admission state: when the reset time has passed it is cleared to `None`
before the spacing check runs. -/
def check_quota_limits (current_time : ℚ) (s : AdmissionState) :
    (Bool × Option QuotaMsg) × AdmissionState :=
  match s.quota_reset_time with
  | none => spacing_check current_time s
  | some r =>
    if r ≠ 0 ∧ current_time < r then
      ((false, some (QuotaMsg.rateLimited (pyInt (r - current_time)))), s)
    else if r ≠ 0 ∧ r ≤ current_time then
      spacing_check current_time { s with quota_reset_time := none }
    else
      spacing_check current_time s

/-- A lockout is inactive when `quota_reset_time` is unset, falsy (`0`), or
already expired at the current time — exactly the situations in which
`check_quota_limits` falls through to the spacing check. -/
def lockInactive (current_time : ℚ) : Option ℚ → Prop
  | none => True
  | some r => r = 0 ∨ r ≤ current_time

instance (current_time : ℚ) (o : Option ℚ) : Decidable (lockInactive current_time o) := by
  cases o <;> simp [lockInactive] <;> infer_instance

theorem pyInt_eq_floor {q : ℚ} (h : 0 ≤ q) : pyInt q = ⌊q⌋ := by
  simp [pyInt, h]

theorem check_result_of_lockInactive (current_time : ℚ) (s : AdmissionState)
    (h : lockInactive current_time s.quota_reset_time) :
    (check_quota_limits current_time s).1 = (spacing_check current_time s).1 := by
  rcases s with ⟨t, lock⟩
  cases lock with
  | none => rfl
  | some r =>
    rcases h with h0 | hle
    · simp [check_quota_limits, h0, spacing_check]
    · by_cases h0 : r = 0
      · simp [check_quota_limits, h0, spacing_check]
      · by_cases h3 : current_time - t < 3 <;>
          simp [check_quota_limits, h0, not_lt.mpr hle, hle, spacing_check, h3]

/-- C1: with no active lockout, a check strictly inside the 3-second window
after `last_request_time = t` is refused with `⌊3 - (now - t)⌋` seconds of
wait, and a check at `t + 3` or later is admitted (boundary inclusive). -/
theorem admission_spacing_correct (t now : ℚ) (lock : Option ℚ)
    (h : lockInactive now lock) :
    (now - t < 3 →
      (check_quota_limits now ⟨t, lock⟩).1 =
        (false, some (QuotaMsg.waitBeforeNext ⌊3 - (now - t)⌋))) ∧
    (3 ≤ now - t →
      (check_quota_limits now ⟨t, lock⟩).1 = (true, none)) := by
  constructor
  · intro hlt
    rw [check_result_of_lockInactive now ⟨t, lock⟩ h]
    have hpos : (0 : ℚ) ≤ 3 - (now - t) := by linarith
    simp [spacing_check, hlt, pyInt_eq_floor hpos]
  · intro hge
    rw [check_result_of_lockInactive now ⟨t, lock⟩ h]
    simp [spacing_check, not_lt.mpr hge]

/-- Witness for C1: with `last_request_time = 0` and no lockout, a check at
time `1` is refused with 2 seconds of wait, and a check at time `3` is
admitted. -/
theorem admission_spacing_witness :
    (check_quota_limits 1 ⟨0, none⟩).1 =
      (false, some (QuotaMsg.waitBeforeNext 2)) ∧
    (check_quota_limits 3 ⟨0, none⟩).1 = (true, none) := by
  constructor
  · have h := (admission_spacing_correct 0 1 none trivial).1 (by norm_num)
    rw [h]
    norm_num
  · exact (admission_spacing_correct 0 3 none trivial).2 (by norm_num)

/-- C2: after a lockout recorded at a (nonnegative) time `t`, i.e.
`quota_reset_time = some (t + 120)`, any check strictly before `t + 120` is
refused as rate-limited with the floor of the remaining wait, while a check
at or after `t + 120` clears `quota_reset_time` and, when the 3-second
spacing rule is also satisfied, is admitted. -/
theorem admission_lockout_correct (t now lastReq : ℚ) (ht : 0 ≤ t) :
    (now < t + 120 →
      (check_quota_limits now ⟨lastReq, some (t + 120)⟩).1 =
        (false, some (QuotaMsg.rateLimited ⌊t + 120 - now⌋))) ∧
    (t + 120 ≤ now →
      (check_quota_limits now ⟨lastReq, some (t + 120)⟩).2.quota_reset_time = none ∧
      (3 ≤ now - lastReq →
        (check_quota_limits now ⟨lastReq, some (t + 120)⟩).1 = (true, none))) := by
  have hne : t + 120 ≠ 0 := by positivity
  constructor
  · intro hlt
    have hpos : (0 : ℚ) ≤ t + 120 - now := by linarith
    simp [check_quota_limits, hne, hlt, pyInt_eq_floor hpos]
  · intro hge
    constructor
    · by_cases h3 : now - lastReq < 3 <;>
        simp [check_quota_limits, hne, not_lt.mpr hge, hge, spacing_check, h3]
    · intro hsp
      simp [check_quota_limits, hne, not_lt.mpr hge, hge, spacing_check,
        not_lt.mpr hsp]

/-- Witness for C2: with a lockout recorded at time `0` (reset time `120`),
a check at time `100` is refused with 20 seconds remaining, while a check at
time `120` (with `last_request_time = 0`) clears the lockout and is
admitted. -/
theorem admission_lockout_witness :
    (check_quota_limits 100 ⟨0, some (0 + 120)⟩).1 =
      (false, some (QuotaMsg.rateLimited 20)) ∧
    (check_quota_limits 120 ⟨0, some (0 + 120)⟩).2.quota_reset_time = none ∧
    (check_quota_limits 120 ⟨0, some (0 + 120)⟩).1 = (true, none) := by
  have h1 := (admission_lockout_correct 0 100 0 le_rfl).1 (by norm_num)
  have h2 := (admission_lockout_correct 0 120 0 le_rfl).2 (by norm_num)
  refine ⟨?_, h2.1, h2.2 (by norm_num)⟩
  rw [h1]
  norm_num

/-- Counterexample to C3 as stated: `check_quota_limits` is not free of
state mutation.  With `last_request_time = 0` and an expired lockout
`quota_reset_time = some 10`, a check at time `10` clears the lockout field,
so the state after the check differs from the state before it. -/
theorem admission_check_mutates_on_expiry :
    (check_quota_limits 10 ⟨0, some 10⟩).2 ≠ (⟨0, some 10⟩ : AdmissionState) := by
  have h : (check_quota_limits 10 ⟨0, some 10⟩).2 =
      (⟨0, none⟩ : AdmissionState) := by
    norm_num [check_quota_limits, spacing_check]
  rw [h]
  simp

/-- C3 (amended): a check never mutates `last_request_time`, and it either
leaves the whole state unchanged or — exactly when a set, nonzero
`quota_reset_time` has expired — clears that one field to `none`. -/
theorem admission_check_frame (now : ℚ) (s : AdmissionState) :
    (check_quota_limits now s).2.last_request_time = s.last_request_time ∧
    ((check_quota_limits now s).2 = s ∨
      ((check_quota_limits now s).2 = { s with quota_reset_time := none } ∧
        ∃ r, s.quota_reset_time = some r ∧ r ≠ 0 ∧ r ≤ now)) := by
  rcases s with ⟨t, lock⟩
  cases lock with
  | none =>
    by_cases h3 : now - t < 3 <;> simp [check_quota_limits, spacing_check, h3]
  | some r =>
    by_cases h0 : r = 0
    · by_cases h3 : now - t < 3 <;>
        simp [check_quota_limits, spacing_check, h0, h3]
    · by_cases hlt : now < r
      · simp [check_quota_limits, spacing_check, h0, hlt]
      · have hle : r ≤ now := le_of_not_lt hlt
        by_cases h3 : now - t < 3 <;>
          simp [check_quota_limits, spacing_check, h0, hlt, hle, h3]

/-- The fixed character budget for source content (src/app.py line 221). -/
def max_chars : Nat := 7000

/-- The marker appended when content was truncated (src/app.py line 224). -/
def truncation_marker : List Char := "\n[Content truncated for optimization]".toList

/-- Embedding of the content truncation in `generate_questions`
(src/app.py lines 220-224): slice to the first `max_chars` characters and
append the marker exactly when the original was longer. -/
def truncated_content (content : List Char) : List Char :=
  if max_chars < content.length then
    content.take max_chars ++ truncation_marker
  else
    content.take max_chars

/-- Text of the prompt template before the embedded content
(src/app.py lines 227-232). -/
def prompt_header (mcq short : Nat) (difficulty topic : List Char) : List Char :=
  "Generate ".toList ++ (toString mcq).toList ++ " MCQs and ".toList ++
    (toString short).toList ++ " short questions.\nDifficulty: ".toList ++
    difficulty ++ "\nTopic: ".toList ++ topic ++ "\n\nContent:\n".toList

/-- Text of the prompt template after the embedded content
(src/app.py lines 234-244). -/
def prompt_footer (mcq short : Nat) : List Char :=
  "\n\n=== MULTIPLE CHOICE (".toList ++ (toString mcq).toList ++
    ") ===\nQ1. [Question]\nA) [Option A]\nB) [Option B]\nC) [Option C]\nD) [Option D]\nAnswer: [A/B/C/D]\n\n=== SHORT ANSWER (".toList ++
    (toString short).toList ++ ") ===\nQ1. [Question]\nAnswer: [2-3 lines]".toList

/-- The full prompt f-string of `generate_questions`
(src/app.py lines 227-244), written as one concatenation in source order. -/
def build_prompt (mcq short : Nat) (difficulty topic content : List Char) :
    List Char :=
  "Generate ".toList ++ (toString mcq).toList ++ " MCQs and ".toList ++
    (toString short).toList ++ " short questions.\nDifficulty: ".toList ++
    difficulty ++ "\nTopic: ".toList ++ topic ++ "\n\nContent:\n".toList ++
    truncated_content content ++
    "\n\n=== MULTIPLE CHOICE (".toList ++ (toString mcq).toList ++
    ") ===\nQ1. [Question]\nA) [Option A]\nB) [Option B]\nC) [Option C]\nD) [Option D]\nAnswer: [A/B/C/D]\n\n=== SHORT ANSWER (".toList ++
    (toString short).toList ++ ") ===\nQ1. [Question]\nAnswer: [2-3 lines]".toList

/-- ASCII lower-casing of a character, the behaviour of Python
`str.lower()` on the ASCII range (the only range the quota keywords use). -/
def pyLowerChar (c : Char) : Char :=
  if 'A' ≤ c ∧ c ≤ 'Z' then Char.ofNat (c.toNat + 32) else c

/-- Lower-casing of a whole string, Python `error_str.lower()`. -/
def pyLower (s : List Char) : List Char := s.map pyLowerChar

/-- Contiguous-substring test, Python `needle in hay` on strings. -/
def containsSub (needle hay : List Char) : Bool :=
  (List.range (hay.length + 1)).any fun i =>
    (hay.drop i).take needle.length == needle

/-- The quota/rate-limit classification of an exception message in
`generate_questions` (src/app.py line 256): the message contains `429`, or
contains `quota` or `exceeded` after lower-casing. -/
def is_quota_error (e : List Char) : Bool :=
  containsSub "429".toList e || containsSub "quota".toList (pyLower e) ||
    containsSub "exceeded".toList (pyLower e)

/-- Outcome of the external `model.generate_content(prompt)` call: a truthy
response with its text, a falsy response, or a raised exception with its
message `str(e)`. -/
inductive CallOutcome where
  | success (text : List Char)
  | noResponse
  | raised (errorStr : List Char)
deriving DecidableEq, Repr

/-- The user-visible messages `generate_questions` can emit:
the admission warning, the fixed quota-exceeded error panel, and the
generic error with the message sliced to 200 characters. -/
inductive GenMessage where
  | warnRateLimit (m : QuotaMsg)
  | quotaExceeded
  | generationFailed (shown : List Char)
deriving DecidableEq, Repr

/-- Observable result of one `generate_questions` call: the returned value,
the prompt dispatched to the model (if any), the admission state afterwards,
and the message shown (if any). -/
structure GenOutput where
  result : Option (List Char)
  sentPrompt : Option (List Char)
  state : AdmissionState
  message : Option GenMessage
deriving DecidableEq, Repr

/-- Embedding of `generate_questions` (src/app.py lines 206-274).  The three
`time.time()` readings are explicit inputs: `t_check` inside
`check_quota_limits`, `t_dispatch` when `last_request_time` is recorded just
before the network call, and `t_fail` when a quota error sets
`quota_reset_time`.  `model_ok` stands for `get_generative_model` returning
a model rather than `None`, and `outcome` for the behaviour of the external
call. -/
def generate_questions (t_check t_dispatch t_fail : ℚ) (model_ok : Bool)
    (outcome : CallOutcome) (content : List Char) (mcq short : Nat)
    (difficulty topic : List Char) (s : AdmissionState) : GenOutput :=
  match check_quota_limits t_check s with
  | ((false, msg), s1) =>
    { result := none, sentPrompt := none, state := s1,
      message := msg.map GenMessage.warnRateLimit }
  | ((true, _), s1) =>
    if model_ok = false then
      { result := none, sentPrompt := none, state := s1, message := none }
    else
      let prompt := build_prompt mcq short difficulty topic content
      let s2 : AdmissionState := { s1 with last_request_time := t_dispatch }
      match outcome with
      | CallOutcome.success text =>
        { result := some text, sentPrompt := some prompt, state := s2,
          message := none }
      | CallOutcome.noResponse =>
        { result := none, sentPrompt := some prompt, state := s2,
          message := none }
      | CallOutcome.raised e =>
        if is_quota_error e then
          { result := none, sentPrompt := some prompt,
            state := { s2 with quota_reset_time := some (t_fail + 120) },
            message := some GenMessage.quotaExceeded }
        else
          { result := none, sentPrompt := some prompt, state := s2,
            message := some (GenMessage.generationFailed (e.take 200)) }

/-- C4: the prompt embeds the truncated content between the fixed header and
footer; content of at most 7000 characters is embedded unchanged with no
marker; longer content is cut to exactly its first 7000 characters and the
truncation marker is appended. -/
theorem prompt_truncation_correct (content difficulty topic : List Char)
    (mcq short : Nat) :
    build_prompt mcq short difficulty topic content =
      prompt_header mcq short difficulty topic ++ truncated_content content ++
        prompt_footer mcq short ∧
    (content.length ≤ 7000 → truncated_content content = content) ∧
    (7000 < content.length →
      truncated_content content = content.take 7000 ++ truncation_marker ∧
      (content.take 7000).length = 7000) := by
  refine ⟨?_, ?_, ?_⟩
  · simp only [build_prompt, prompt_header, prompt_footer, List.append_assoc]
  · intro hle
    simp [truncated_content, max_chars, not_lt.mpr hle, List.take_of_length_le hle]
  · intro hgt
    refine ⟨by simp [truncated_content, max_chars, hgt], ?_⟩
    rw [List.length_take]
    omega

/-- Witness for C4: a 10,000-character input is cut to exactly its first
7000 characters and the marker is appended. -/
theorem prompt_truncation_witness :
    7000 < (List.replicate 10000 'a').length ∧
    truncated_content (List.replicate 10000 'a') =
      List.replicate 7000 'a' ++ truncation_marker ∧
    (truncated_content (List.replicate 10000 'a')).length =
      7000 + truncation_marker.length := by
  have hlen : 7000 < (List.replicate 10000 'a').length := by
    rw [List.length_replicate]
    norm_num
  have h := (prompt_truncation_correct (List.replicate 10000 'a') [] [] 5 3).2.2
    hlen
  refine ⟨hlen, ?_, ?_⟩
  · rw [h.1, List.take_replicate]
    norm_num
  · rw [h.1, List.length_append, h.2]

theorem check_admitted_of_spacing (t1 lastReq : ℚ) (hsp : 3 ≤ t1 - lastReq) :
    check_quota_limits t1 ⟨lastReq, none⟩ =
      ((true, none), ⟨lastReq, none⟩) := by
  simp [check_quota_limits, spacing_check, not_lt.mpr hsp]

/-- C5: for an admitted request whose external call raises, an error message
containing `429`, or `quota`/`exceeded` case-insensitively, is reported as
the quota-exceeded error and sets the lockout to 120 seconds after the
current time; any other message is reported as a generation failure sliced
to 200 characters, with no lockout recorded. -/
theorem error_classification_correct (t1 t2 t3 lastReq : ℚ)
    (e content difficulty topic : List Char) (mcq short : Nat)
    (hsp : 3 ≤ t1 - lastReq) :
    (is_quota_error e = true →
      generate_questions t1 t2 t3 true (CallOutcome.raised e) content mcq
        short difficulty topic ⟨lastReq, none⟩ =
        { result := none,
          sentPrompt := some (build_prompt mcq short difficulty topic content),
          state := ⟨t2, some (t3 + 120)⟩,
          message := some GenMessage.quotaExceeded }) ∧
    (is_quota_error e = false →
      generate_questions t1 t2 t3 true (CallOutcome.raised e) content mcq
        short difficulty topic ⟨lastReq, none⟩ =
        { result := none,
          sentPrompt := some (build_prompt mcq short difficulty topic content),
          state := ⟨t2, none⟩,
          message := some (GenMessage.generationFailed (e.take 200)) }) := by
  have hchk := check_admitted_of_spacing t1 lastReq hsp
  constructor <;> intro hq <;> simp [generate_questions, hchk, hq]

/-- Witness for C5: with the spacing rule satisfied, the message `429` sets
a lockout 120 seconds after the failure-time reading, while the message
`boom` yields a generation-failure report and leaves the lockout unset. -/
theorem error_classification_witness :
    generate_questions 3 4 5 true (CallOutcome.raised ("429".toList)) [] 1 1
        [] [] ⟨0, none⟩ =
      { result := none, sentPrompt := some (build_prompt 1 1 [] [] []),
        state := ⟨4, some (5 + 120)⟩,
        message := some GenMessage.quotaExceeded } ∧
    generate_questions 3 4 5 true (CallOutcome.raised ("boom".toList)) [] 1 1
        [] [] ⟨0, none⟩ =
      { result := none, sentPrompt := some (build_prompt 1 1 [] [] []),
        state := ⟨4, none⟩,
        message := some (GenMessage.generationFailed ("boom".toList.take 200)) } := by
  constructor
  · exact (error_classification_correct 3 4 5 0 ("429".toList) [] [] [] 1 1
      (by norm_num)).1 (by decide)
  · exact (error_classification_correct 3 4 5 0 ("boom".toList) [] [] [] 1 1
      (by norm_num)).2 (by decide)

/-- C8: whenever a generation attempt passes the admission check (here: no
lockout and the spacing rule satisfied) and a model is available,
`last_request_time` afterwards equals the dispatch-time reading `t_dispatch`
taken immediately before the external call — for every outcome of that
call, including failures. -/
theorem record_request_before_dispatch (t1 t2 t3 lastReq : ℚ)
    (outcome : CallOutcome) (content difficulty topic : List Char)
    (mcq short : Nat) (hsp : 3 ≤ t1 - lastReq) :
    (generate_questions t1 t2 t3 true outcome content mcq short difficulty
      topic ⟨lastReq, none⟩).state.last_request_time = t2 := by
  have hchk := check_admitted_of_spacing t1 lastReq hsp
  cases outcome with
  | success text => simp [generate_questions, hchk]
  | noResponse => simp [generate_questions, hchk]
  | raised e =>
    by_cases hq : is_quota_error e <;> simp [generate_questions, hchk, hq]

/-- Witness for C8: an admitted attempt whose call raises a non-quota error
still leaves `last_request_time` at the dispatch-time reading `4`. -/
theorem record_request_witness :
    (generate_questions 3 4 5 true (CallOutcome.raised ("oops".toList)) [] 1 1
      [] [] ⟨0, none⟩).state.last_request_time = 4 :=
  record_request_before_dispatch 3 4 5 0 (CallOutcome.raised ("oops".toList))
    [] [] [] 1 1 (by norm_num)

/-- Test for the ASCII whitespace characters removed by Python
`str.strip()` (the full Unicode set restricted to the ASCII range). -/
def pyIsSpace (c : Char) : Bool :=
  c == ' ' || c == '\t' || c == '\n' || c == '\r' || c == '\x0b' || c == '\x0c'

/-- Python `s.strip()`: drop leading and trailing whitespace. -/
def stripWs (s : List Char) : List Char :=
  ((s.dropWhile pyIsSpace).reverse.dropWhile pyIsSpace).reverse

/-- Python rendering of a value that is either a string or `None`, as an
f-string interpolates it (`None` prints as `None`). -/
def pyStrOfOpt : Option (List Char) → List Char
  | none => "None".toList
  | some s => s

/-- One saved entry of `st.session_state.conversation_history`
(src/app.py lines 336-341).  The source stores a formatted `KB` label
computed from the content length; the embedding keeps that length. -/
structure SavedContext where
  file : Option (List Char)
  content : List Char
  timestamp : List Char
  size : Nat
deriving DecidableEq, Repr

/-- Insertion `d[k] = v` into a Python dict modelled as an association list
in insertion order: replace the value in place when the key exists, append
a fresh entry otherwise. -/
def dictInsert {K V : Type} [DecidableEq K] :
    List (K × V) → K → V → List (K × V)
  | [], k, v => [(k, v)]
  | (k', v') :: rest, k, v =>
    if k' = k then (k, v) :: rest else (k', v') :: dictInsert rest k v

/-- Lookup `d[k]` in a Python dict modelled as an association list. -/
def dictLookup {K V : Type} [DecidableEq K] : List (K × V) → K → Option V
  | [], _ => none
  | (k', v') :: rest, k => if k' = k then some v' else dictLookup rest k

/-- Removal performed by a successful Python `del d[k]`: drop the (unique)
entry with the given key, keeping the order of the others. -/
def dictErase {K V : Type} [DecidableEq K] : List (K × V) → K → List (K × V)
  | [], _ => []
  | (k', v') :: rest, k =>
    if k' = k then rest else (k', v') :: dictErase rest k

/-- The session-scoped store the sidebar operates on: the saved-context
dict, the current working text and the current file name
(src/app.py lines 60-65). -/
structure SessionStore where
  conversation_history : List (List Char × SavedContext)
  current_context : List Char
  current_file_name : Option (List Char)
deriving DecidableEq, Repr

/-- The key built by the Save Context button (src/app.py line 335):
current file name, an underscore, and the wall-clock time formatted
`%H:%M:%S`. -/
def context_key (hms : List Char) (f : Option (List Char)) : List Char :=
  pyStrOfOpt f ++ "_".toList ++ hms

/-- Embedding of the Save Context button body (src/app.py lines 333-344):
when the stripped current text is non-empty, insert a `SavedContext` under
the timestamped key; otherwise do nothing (a warning is shown).  `hms` is
the `%H:%M:%S` rendering and `full` the `%Y-%m-%d %H:%M:%S` rendering of
the wall-clock time at the click. -/
def saveContext (hms full : List Char) (st : SessionStore) : SessionStore :=
  if stripWs st.current_context ≠ [] then
    let key := context_key hms st.current_file_name
    let entry : SavedContext :=
      ⟨st.current_file_name, st.current_context, full,
        st.current_context.length⟩
    { st with conversation_history := dictInsert st.conversation_history key entry }
  else st

/-- Embedding of the Load button body (src/app.py lines 363-367): replace
the current text and file name with the saved entry's; the entry itself is
not touched.  The source reads the entry from the dict iteration, which for
a present key is the same as this lookup. -/
def loadContext (key : List Char) (st : SessionStore) : SessionStore :=
  match dictLookup st.conversation_history key with
  | some cd =>
    { st with current_context := cd.content, current_file_name := cd.file }
  | none => st

/-- Embedding of the Delete button body (src/app.py lines 370-373):
Python `del st.session_state.conversation_history[context_key]`, which
removes the entry when the key is present and raises `KeyError`
(modelled as `Except.error ()`) when it is absent. -/
def deleteContext (key : List Char) (st : SessionStore) :
    Except Unit SessionStore :=
  if (dictLookup st.conversation_history key).isSome then
    Except.ok { st with conversation_history := dictErase st.conversation_history key }
  else
    Except.error ()

/-- The effect of a delete click on the store: the new store on success,
the unchanged store when the `del` raises. -/
def deleteContextEffect (key : List Char) (st : SessionStore) : SessionStore :=
  match deleteContext key st with
  | Except.ok st' => st'
  | Except.error _ => st

theorem dictLookup_dictInsert_self {K V : Type} [DecidableEq K]
    (d : List (K × V)) (k : K) (v : V) :
    dictLookup (dictInsert d k v) k = some v := by
  induction d with
  | nil => simp [dictInsert, dictLookup]
  | cons p rest ih =>
    by_cases h : p.1 = k
    · simp [dictInsert, dictLookup, h]
    · simp [dictInsert, dictLookup, h, ih]

theorem dictLookup_eq_none_of {K V : Type} [DecidableEq K]
    {d : List (K × V)} {k : K} (h : ∀ p ∈ d, ¬ p.1 = k) :
    dictLookup d k = none := by
  induction d with
  | nil => rfl
  | cons p rest ih =>
    have hp : ¬ p.1 = k := h p (List.mem_cons_self p rest)
    simp only [dictLookup, if_neg hp]
    exact ih fun q hq => h q (List.mem_cons_of_mem p hq)

theorem dictErase_eq_filter {K V : Type} [DecidableEq K]
    {d : List (K × V)} {k : K} (h : (d.map Prod.fst).Nodup) :
    dictErase d k = d.filter fun p => !decide (p.1 = k) := by
  induction d with
  | nil => rfl
  | cons p rest ih =>
    rw [List.map_cons, List.nodup_cons] at h
    by_cases hp : p.1 = k
    · have hrest : rest.filter (fun q => !decide (q.1 = k)) = rest := by
        refine List.filter_eq_self.mpr fun q hq => ?_
        simp only [Bool.not_eq_true', decide_eq_false_iff_not]
        intro hqk
        exact h.1 (by
          rw [hp, ← hqk]
          exact List.mem_map_of_mem Prod.fst hq)
      simp [dictErase, List.filter_cons, hp, hrest]
    · simp [dictErase, List.filter_cons, hp, ih h.2]

/-- Counterexample to C6 as stated: two saves of the same file name whose
wall-clock times render to the same `%H:%M:%S` string produce the SAME key,
so the second save overwrites the first.  After two saves of file `a` at
`12:00:00` the store holds a single entry carrying the second save's
timestamp; the first saved context is gone. -/
theorem save_same_second_overwrites :
    (saveContext ("12:00:00".toList) ("T2".toList)
        (saveContext ("12:00:00".toList) ("T1".toList)
          ⟨[], "x".toList, some ("a".toList)⟩)).conversation_history =
      [("a_12:00:00".toList,
        ⟨some ("a".toList), "x".toList, "T2".toList, 1⟩)] := by
  decide

/-- C6 (amended): two saves with the same current file name insert under
two distinct keys — and hence the first is not overwritten — provided their
wall-clock times differ in the rendered `%H:%M:%S` string; saves within the
same second share a key and the second overwrites the first. -/
theorem save_distinct_times_distinct_keys (f : Option (List Char))
    (c1 c2 hms1 hms2 full1 full2 : List Char)
    (hne : hms1 ≠ hms2) (h1 : stripWs c1 ≠ []) (h2 : stripWs c2 ≠ []) :
    context_key hms1 f ≠ context_key hms2 f ∧
    (saveContext hms2 full2
        { saveContext hms1 full1 ⟨[], c1, f⟩ with current_context := c2 }).conversation_history =
      [(context_key hms1 f, ⟨f, c1, full1, c1.length⟩),
       (context_key hms2 f, ⟨f, c2, full2, c2.length⟩)] := by
  have hkne : context_key hms1 f ≠ context_key hms2 f := by
    intro h
    simp only [context_key] at h
    exact hne (List.append_cancel_left h)
  refine ⟨hkne, ?_⟩
  simp [saveContext, h1, h2, dictInsert, hkne]

/-- Witness for C6 (amended): saves at `00:00:01` and `00:00:02` of file
`a` yield two distinct keys and both entries are retained. -/
theorem save_distinct_times_witness :
    context_key ("00:00:01".toList) (some ("a".toList)) ≠
      context_key ("00:00:02".toList) (some ("a".toList)) ∧
    (saveContext ("00:00:02".toList) ("T2".toList)
        { saveContext ("00:00:01".toList) ("T1".toList) ⟨[], "x".toList, some ("a".toList)⟩ with current_context := "y".toList }).conversation_history =
      [(context_key ("00:00:01".toList) (some ("a".toList)),
        ⟨some ("a".toList), "x".toList, "T1".toList, 1⟩),
       (context_key ("00:00:02".toList) (some ("a".toList)),
        ⟨some ("a".toList), "y".toList, "T2".toList, 1⟩)] :=
  save_distinct_times_distinct_keys (some ("a".toList)) ("x".toList)
    ("y".toList) ("00:00:01".toList) ("00:00:02".toList) ("T1".toList)
    ("T2".toList) (by decide) (by decide) (by decide)

/-- Counterexample to C7 as stated: deleting a key absent from the store is
not a silent no-op — the Python `del` raises `KeyError` (here
`Except.error ()`) instead of returning normally. -/
theorem delete_absent_key_raises :
    deleteContext ("k".toList) ⟨[], [], none⟩ = Except.error () := by
  rfl

/-- C7 (amended): over a store with (dict-like) unique keys, deleting a
present key removes exactly the entries carrying that key — one entry —
and deleting an absent key raises `KeyError` while leaving the store
unchanged, so the effect of delete on the store is idempotent. -/
theorem delete_effect_idempotent (st : SessionStore) (key : List Char)
    (hnd : (st.conversation_history.map Prod.fst).Nodup) :
    (dictLookup st.conversation_history key = none →
      deleteContext key st = Except.error () ∧
      deleteContextEffect key st = st) ∧
    ((dictLookup st.conversation_history key).isSome →
      deleteContext key st =
        Except.ok { st with conversation_history :=
          st.conversation_history.filter fun p => !decide (p.1 = key) }) ∧
    deleteContextEffect key (deleteContextEffect key st) =
      deleteContextEffect key st := by
  have herase := dictErase_eq_filter (d := st.conversation_history) (k := key) hnd
  refine ⟨?_, ?_, ?_⟩
  · intro hnone
    have hs : (dictLookup st.conversation_history key).isSome = false := by
      rw [hnone]
      rfl
    exact ⟨by simp [deleteContext, hs],
      by simp [deleteContextEffect, deleteContext, hs]⟩
  · intro hsome
    simp [deleteContext, hsome, herase]
  · by_cases hs : (dictLookup st.conversation_history key).isSome
    · have heff : deleteContextEffect key st =
          { st with conversation_history :=
            dictErase st.conversation_history key } := by
        simp [deleteContextEffect, deleteContext, hs]
      have hn : dictLookup (dictErase st.conversation_history key) key = none := by
        rw [herase]
        refine dictLookup_eq_none_of fun p hp => ?_
        have hmem := List.of_mem_filter hp
        simpa using hmem
      rw [heff]
      simp [deleteContextEffect, deleteContext, hn]
    · simp only [Bool.not_eq_true] at hs
      simp [deleteContextEffect, deleteContext, hs]

/-- Witness for C7 (amended): deleting the only entry of a one-entry store
empties it, and a second delete of the same key leaves the store as the
first one did. -/
theorem delete_effect_witness :
    deleteContext ("k".toList)
        ⟨[("k".toList, ⟨none, "c".toList, "T".toList, 1⟩)], [], none⟩ =
      Except.ok ⟨[], [], none⟩ ∧
    deleteContextEffect ("k".toList)
        (deleteContextEffect ("k".toList)
          ⟨[("k".toList, ⟨none, "c".toList, "T".toList, 1⟩)], [], none⟩) =
      deleteContextEffect ("k".toList)
        ⟨[("k".toList, ⟨none, "c".toList, "T".toList, 1⟩)], [], none⟩ := by
  have h := delete_effect_idempotent
    ⟨[("k".toList, ⟨none, "c".toList, "T".toList, 1⟩)], [], none⟩
    ("k".toList) (by decide)
  refine ⟨?_, h.2.2⟩
  have h2 := h.2.1 (by decide)
  rw [h2]
  rfl

/-- C9: saving non-whitespace working text and loading the resulting key
back restores exactly the saved text and file name, and the saved entry is
still in the store afterwards. -/
theorem save_load_roundtrip (st0 : SessionStore) (hms full : List Char)
    (h : stripWs st0.current_context ≠ []) :
    dictLookup (saveContext hms full st0).conversation_history
        (context_key hms st0.current_file_name) =
      some ⟨st0.current_file_name, st0.current_context, full,
        st0.current_context.length⟩ ∧
    (loadContext (context_key hms st0.current_file_name)
        (saveContext hms full st0)).current_context = st0.current_context ∧
    (loadContext (context_key hms st0.current_file_name)
        (saveContext hms full st0)).current_file_name = st0.current_file_name ∧
    (loadContext (context_key hms st0.current_file_name)
        (saveContext hms full st0)).conversation_history =
      (saveContext hms full st0).conversation_history := by
  have hsave : (saveContext hms full st0).conversation_history =
      dictInsert st0.conversation_history
        (context_key hms st0.current_file_name)
        ⟨st0.current_file_name, st0.current_context, full,
          st0.current_context.length⟩ := by
    simp [saveContext, h]
  have hlook : dictLookup (saveContext hms full st0).conversation_history
      (context_key hms st0.current_file_name) =
      some ⟨st0.current_file_name, st0.current_context, full,
        st0.current_context.length⟩ := by
    rw [hsave, dictLookup_dictInsert_self]
  refine ⟨hlook, ?_, ?_, ?_⟩ <;> simp [loadContext, hlook]

/-- Witness for C9: saving working text `x` of file `a` and loading the
resulting key restores text and file name, and the entry is retained. -/
theorem save_load_witness :
    (loadContext (context_key ("12:00:00".toList) (some ("a".toList)))
        (saveContext ("12:00:00".toList) ("T".toList)
          ⟨[], "x".toList, some ("a".toList)⟩)).current_context = "x".toList ∧
    (loadContext (context_key ("12:00:00".toList) (some ("a".toList)))
        (saveContext ("12:00:00".toList) ("T".toList)
          ⟨[], "x".toList, some ("a".toList)⟩)).current_file_name =
      some ("a".toList) := by
  have h := save_load_roundtrip ⟨[], "x".toList, some ("a".toList)⟩
    ("12:00:00".toList) ("T".toList) (by decide)
  exact ⟨h.2.1, h.2.2.1⟩

/-- Embedding of `read_pdf` (src/app.py lines 77-85) on a successfully
parsed document: the library yields per-page extracted text (`none` when a
page has none, read as the empty string by `or ""`); pages are joined with
newlines and the result stripped. -/
def read_pdf (pages : List (Option (List Char))) : List Char :=
  stripWs (List.intercalate ("\n".toList) (pages.map fun p => p.getD []))

/-- Embedding of `read_docx` (src/app.py lines 88-99) on a successfully
parsed document: paragraphs joined with newlines, then each table row
appended as a newline plus its pipe-joined cells, and the result
stripped. -/
def read_docx (paragraphs : List (List Char))
    (rows : List (List (List Char))) : List Char :=
  stripWs (List.intercalate ("\n".toList) paragraphs ++
    (rows.map fun row =>
      "\n".toList ++ List.intercalate (" | ".toList) row).flatten)

/-- Embedding of `read_txt` (src/app.py lines 102-108): the UTF-8 decode of
the raw bytes either succeeds with the text or raises; on success the text
is stripped, on failure the reader returns `None`. -/
def read_txt (decoded : Except Unit (List Char)) : Option (List Char) :=
  match decoded with
  | Except.ok s => some (stripWs s)
  | Except.error _ => none

/-- Embedding of `read_csv` (src/app.py lines 111-118) on a successfully
parsed file: the reader returns `df.to_string()` — the library's rendering
— unchanged, with no strip. -/
def read_csv (rendered : List Char) : List Char := rendered

/-- Embedding of `read_excel` (src/app.py lines 121-132) on a successfully
parsed workbook: each (sheet name, rendering) pair contributes a header
line and its rendering, and the concatenation is stripped. -/
def read_excel (sheets : List (List Char × List Char)) : List Char :=
  stripWs ((sheets.map fun sh =>
    "\n--- Sheet: ".toList ++ sh.1 ++ " ---\n".toList ++ sh.2 ++
      "\n".toList).flatten)

/-- Embedding of the upload handler (src/app.py lines 402-408):
`if text_content:` installs the extracted text and file name into the
session; both `None` (extraction failed) and the empty string are falsy
and install nothing. -/
def installExtracted (res : Option (List Char)) (fname : List Char)
    (st : SessionStore) : SessionStore :=
  match res with
  | some t =>
    if t ≠ [] then
      { st with current_context := t, current_file_name := some fname }
    else st
  | none => st

theorem dropWhile_eq_nil_of_all {α : Type} {p : α → Bool} :
    ∀ {l : List α}, (∀ c ∈ l, p c = true) → l.dropWhile p = []
  | [], _ => rfl
  | a :: l, h => by
    rw [List.dropWhile_cons_of_pos (h a (List.mem_cons_self a l))]
    exact dropWhile_eq_nil_of_all fun c hc => h c (List.mem_cons_of_mem a hc)

theorem stripWs_eq_nil_of_space {s : List Char}
    (h : ∀ c ∈ s, pyIsSpace c = true) : stripWs s = [] := by
  have h1 : s.dropWhile pyIsSpace = [] := dropWhile_eq_nil_of_all h
  simp [stripWs, h1]

theorem stripWs_idem (s : List Char) : stripWs (stripWs s) = stripWs s := by
  cases hr : (s.dropWhile pyIsSpace).reverse.dropWhile pyIsSpace with
  | nil => simp [stripWs, hr]
  | cons a t =>
    have ha : pyIsSpace a = false := by
      have h := List.head?_dropWhile_not pyIsSpace (s.dropWhile pyIsSpace).reverse
      rw [hr] at h
      simpa using h
    obtain ⟨b, u, hbu⟩ :=
      List.exists_cons_of_ne_nil (l := (a :: t).reverse) (by simp)
    have hsplit :=
      List.takeWhile_append_dropWhile pyIsSpace (s.dropWhile pyIsSpace).reverse
    rw [hr] at hsplit
    have hm := congrArg List.reverse hsplit.symm
    simp only [List.reverse_reverse, List.reverse_append] at hm
    have hb : pyIsSpace b = false := by
      have h2 := List.head?_dropWhile_not pyIsSpace s
      rw [hm, hbu] at h2
      simpa using h2
    have hss : stripWs s = (a :: t).reverse := by
      simp only [stripWs, hr]
    rw [hss]
    simp only [stripWs, hbu]
    rw [List.dropWhile_cons_of_neg (by simp [hb])]
    rw [← hbu, List.reverse_reverse]
    rw [List.dropWhile_cons_of_neg (by simp [ha])]

/-- Counterexample to C10 as stated: not every reader strips its result.
The CSV reader returns the library rendering unstripped, so a
whitespace-only CSV extraction is truthy and IS installed as the current
working context — distinguishable from the null failure signal. -/
theorem csv_reader_not_stripped :
    stripWs (read_csv (" ".toList)) ≠ read_csv (" ".toList) ∧
    installExtracted (some (read_csv (" ".toList))) ("a.csv".toList)
        ⟨[], [], none⟩ ≠ (⟨[], [], none⟩ : SessionStore) := by
  constructor <;> decide

/-- C10 (amended): the TXT reader strips its decoded text, and the PDF,
DOCX and Excel readers return already-stripped text (stripping is
idempotent on their outputs); the caller treats the empty string exactly
like the `None` failure signal, so a whitespace-only TXT document is never
installed as the current working context.  The CSV reader alone returns the
library rendering unstripped. -/
theorem whitespace_extraction_like_failure (s fname : List Char)
    (st : SessionStore) (pages : List (Option (List Char)))
    (paragraphs : List (List Char)) (rows : List (List (List Char)))
    (sheets : List (List Char × List Char)) :
    read_txt (Except.ok s) = some (stripWs s) ∧
    stripWs (read_pdf pages) = read_pdf pages ∧
    stripWs (read_docx paragraphs rows) = read_docx paragraphs rows ∧
    stripWs (read_excel sheets) = read_excel sheets ∧
    installExtracted none fname st = st ∧
    ((∀ c ∈ s, pyIsSpace c = true) →
      read_txt (Except.ok s) = some [] ∧
      installExtracted (read_txt (Except.ok s)) fname st =
        installExtracted none fname st) := by
  refine ⟨rfl, stripWs_idem _, stripWs_idem _, stripWs_idem _, rfl, ?_⟩
  intro hws
  have h0 : stripWs s = [] := stripWs_eq_nil_of_space hws
  refine ⟨by simp [read_txt, h0], ?_⟩
  simp [read_txt, h0, installExtracted]

/-- Witness for C10 (amended): a TXT document consisting of two spaces
decodes to the empty extraction, and installing it changes the session no
more than an extraction failure does. -/
theorem whitespace_extraction_witness :
    read_txt (Except.ok ("  ".toList)) = some [] ∧
    installExtracted (read_txt (Except.ok ("  ".toList))) ("a.txt".toList)
        ⟨[], [], none⟩ =
      installExtracted none ("a.txt".toList) ⟨[], [], none⟩ :=
  (whitespace_extraction_like_failure ("  ".toList) ("a.txt".toList)
    ⟨[], [], none⟩ [] [] [] []).2.2.2.2.2 (by decide)
